import Mathlib

/-!
Verification of the isotope-distribution engine of `Isotope_ABN_DB_creation.py`.

The script parses a molecular formula with the regular expression
`([A-Z][a-z]*)(\d*)` (via `re.findall`), builds a Python dict from the matched
tokens, and computes the M+1, M+2 and M+3 isotope-peak probabilities (as
percentages) of the formula from hard-coded natural abundances of C, H, N, O.

Real-number arithmetic of the script is modelled over `ℚ`; all abundance
constants of the script are exact decimal fractions, so every computation of
the script is exact rational arithmetic.
-/

/-! ### Isotopic abundance table (`isotopic_abundances` dict of the script) -/

/-- `isotopic_abundances['C']['p'] = 1.07/100` (¹³C). -/
def P_C13 : ℚ := 107 / 10000

/-- `isotopic_abundances['C']['n'] = 98.891/100` (¹²C). -/
def N_C12 : ℚ := 98891 / 100000

/-- `isotopic_abundances['H']['p'] = 0.0156/100` (²H). -/
def P_H2 : ℚ := 156 / 1000000

/-- `isotopic_abundances['H']['n'] = 99.9844/100` (¹H). -/
def N_H1 : ℚ := 999844 / 1000000

/-- `isotopic_abundances['N']['p'] = 0.365/100` (¹⁵N). -/
def P_N15 : ℚ := 365 / 100000

/-- `isotopic_abundances['N']['n'] = 99.635/100` (¹⁴N). -/
def N_N14 : ℚ := 99635 / 100000

/-- `isotopic_abundances['O']['p1'] = 0.037/100` (¹⁷O). -/
def P_O17 : ℚ := 37 / 100000

/-- `isotopic_abundances['O']['p2'] = 0.204/100` (¹⁸O). -/
def P_O18 : ℚ := 204 / 100000

/-- `isotopic_abundances['O']['n'] = 99.759/100` (¹⁶O). -/
def N_O16 : ℚ := 99759 / 100000

/-! ### Formula parsing (`parse_formula` of the script)

`re.findall(r'([A-Z][a-z]*)(\d*)', formula)` scans the string left to right;
a match must start with one uppercase ASCII letter, greedily takes lowercase
letters, then greedily takes decimal digits; characters that cannot start a
match are skipped.  The dict comprehension
`{elem: int(count) if count else 1 for elem, count in elements}` then builds
a dict in first-insertion order where a repeated key keeps its first position
but receives the value of its last occurrence. -/

/-- Value of a decimal digit string, as computed by Python `int`. -/
def digitsVal (cs : List Char) : ℕ :=
  cs.foldl (fun acc c => acc * 10 + (c.toNat - 48)) 0

/-- One left-to-right pass of `re.findall(r'([A-Z][a-z]*)(\d*)', ·)`,
with explicit fuel so that the kernel can evaluate it. -/
def scanAux : ℕ → List Char → List (String × ℕ)
  | 0, _ => []
  | _, [] => []
  | fuel + 1, c :: rest =>
    if c.isUpper then
      (String.mk (c :: rest.takeWhile Char.isLower),
        if (rest.dropWhile Char.isLower).takeWhile Char.isDigit = [] then 1
        else digitsVal ((rest.dropWhile Char.isLower).takeWhile Char.isDigit)) ::
        scanAux fuel ((rest.dropWhile Char.isLower).dropWhile Char.isDigit)
    else
      scanAux fuel rest

/-- The token list produced by `re.findall(r'([A-Z][a-z]*)(\d*)', formula)`,
each token already simplified to its symbol and count
(`int(count) if count else 1`). -/
def scanTokens (cs : List Char) : List (String × ℕ) := scanAux cs.length cs

/-- Python dict assignment `d[k] = v`: updates the value in place if the key
is present (keeping its position), appends otherwise. -/
def insertDict : List (String × ℕ) → String × ℕ → List (String × ℕ)
  | [], t => [t]
  | (k, v) :: rest, t => if k = t.1 then (k, t.2) :: rest else (k, v) :: insertDict rest t

/-- Building a Python dict from a token list (the dict comprehension). -/
def buildDict (ts : List (String × ℕ)) : List (String × ℕ) := ts.foldl insertDict []

/-- Python dict lookup returning `none` when the key is absent. -/
def lookupDict : List (String × ℕ) → String → Option ℕ
  | [], _ => none
  | (k, v) :: rest, s => if k = s then some v else lookupDict rest s

/-- Python `composition.get(element, 0)`. -/
def getCount (d : List (String × ℕ)) (s : String) : ℕ := (lookupDict d s).getD 0

/-- `parse_formula` of the script: token scan followed by the dict
comprehension. -/
def parse_formula (formula : String) : List (String × ℕ) :=
  buildDict (scanTokens formula.data)

/-! ### The three probability computations of the script -/

/-- Body of `calculate_m_plus_1_probability` after the composition lookups
`x = composition.get('C', 0)` etc. -/
def calculate_m_plus_1_of_counts (x y w z : ℕ) : ℚ :=
  ((x : ℚ) * P_C13 + (y : ℚ) * P_H2 + (w : ℚ) * P_N15 + (z : ℚ) * P_O17) * 100

/-- `calculate_m_plus_1_probability` of the script. -/
def calculate_m_plus_1_probability (formula : String) : ℚ :=
  calculate_m_plus_1_of_counts (getCount (parse_formula formula) "C")
    (getCount (parse_formula formula) "H") (getCount (parse_formula formula) "N")
    (getCount (parse_formula formula) "O")

/-- Body of `calculate_m_plus_2_probability` after the composition lookups:
the guarded accumulations into `P_M2`, in program order, times 100. -/
def calculate_m_plus_2_of_counts (x y w z : ℕ) : ℚ :=
  ((if 2 ≤ x then (x.choose 2 : ℚ) * P_C13 ^ 2 else 0) +
   (if 2 ≤ y then (y.choose 2 : ℚ) * P_H2 ^ 2 else 0) +
   (if 2 ≤ w then (w.choose 2 : ℚ) * P_N15 ^ 2 else 0) +
   (if 2 ≤ z then (z.choose 2 : ℚ) * P_O17 ^ 2 else 0) +
   (if 1 ≤ x ∧ 1 ≤ y then (x : ℚ) * P_C13 * (y : ℚ) * P_H2 else 0) +
   (if 1 ≤ x ∧ 1 ≤ w then (x : ℚ) * P_C13 * (w : ℚ) * P_N15 else 0) +
   (if 1 ≤ x ∧ 1 ≤ z then (x : ℚ) * P_C13 * (z : ℚ) * P_O17 else 0) +
   (if 1 ≤ y ∧ 1 ≤ w then (y : ℚ) * P_H2 * (w : ℚ) * P_N15 else 0) +
   (if 1 ≤ y ∧ 1 ≤ z then (y : ℚ) * P_H2 * (z : ℚ) * P_O17 else 0) +
   (if 1 ≤ w ∧ 1 ≤ z then (w : ℚ) * P_N15 * (z : ℚ) * P_O17 else 0) +
   (if 1 ≤ z then (z : ℚ) * P_O18 else 0)) * 100

/-- `calculate_m_plus_2_probability` of the script. -/
def calculate_m_plus_2_probability (formula : String) : ℚ :=
  calculate_m_plus_2_of_counts (getCount (parse_formula formula) "C")
    (getCount (parse_formula formula) "H") (getCount (parse_formula formula) "N")
    (getCount (parse_formula formula) "O")

/-- Body of `calculate_m_plus_3_probability` after the composition lookups:
the guarded accumulations into `P_M3`, in program order, times 100. -/
def calculate_m_plus_3_of_counts (x y w z : ℕ) : ℚ :=
  ((if 3 ≤ x then (x.choose 3 : ℚ) * P_C13 ^ 3 else 0) +
   (if 3 ≤ y then (y.choose 3 : ℚ) * P_H2 ^ 3 else 0) +
   (if 3 ≤ w then (w.choose 3 : ℚ) * P_N15 ^ 3 else 0) +
   (if 3 ≤ z then (z.choose 3 : ℚ) * P_O17 ^ 3 else 0) +
   (if 2 ≤ x ∧ 1 ≤ y then (x.choose 2 : ℚ) * P_C13 ^ 2 * (y : ℚ) * P_H2 else 0) +
   (if 2 ≤ x ∧ 1 ≤ w then (x.choose 2 : ℚ) * P_C13 ^ 2 * (w : ℚ) * P_N15 else 0) +
   (if 2 ≤ x ∧ 1 ≤ z then (x.choose 2 : ℚ) * P_C13 ^ 2 * (z : ℚ) * P_O17 else 0) +
   (if 2 ≤ y ∧ 1 ≤ x then (y.choose 2 : ℚ) * P_H2 ^ 2 * (x : ℚ) * P_C13 else 0) +
   (if 2 ≤ y ∧ 1 ≤ w then (y.choose 2 : ℚ) * P_H2 ^ 2 * (w : ℚ) * P_N15 else 0) +
   (if 2 ≤ y ∧ 1 ≤ z then (y.choose 2 : ℚ) * P_H2 ^ 2 * (z : ℚ) * P_O17 else 0) +
   (if 2 ≤ w ∧ 1 ≤ x then (w.choose 2 : ℚ) * P_N15 ^ 2 * (x : ℚ) * P_C13 else 0) +
   (if 2 ≤ w ∧ 1 ≤ y then (w.choose 2 : ℚ) * P_N15 ^ 2 * (y : ℚ) * P_H2 else 0) +
   (if 2 ≤ w ∧ 1 ≤ z then (w.choose 2 : ℚ) * P_N15 ^ 2 * (z : ℚ) * P_O17 else 0) +
   (if 2 ≤ z ∧ 1 ≤ x then (z.choose 2 : ℚ) * P_O17 ^ 2 * (x : ℚ) * P_C13 else 0) +
   (if 2 ≤ z ∧ 1 ≤ y then (z.choose 2 : ℚ) * P_O17 ^ 2 * (y : ℚ) * P_H2 else 0) +
   (if 2 ≤ z ∧ 1 ≤ w then (z.choose 2 : ℚ) * P_O17 ^ 2 * (w : ℚ) * P_N15 else 0) +
   (x : ℚ) * P_C13 * (y : ℚ) * P_H2 * (w : ℚ) * P_N15 +
   (x : ℚ) * P_C13 * (y : ℚ) * P_H2 * (z : ℚ) * P_O17 +
   (x : ℚ) * P_C13 * (w : ℚ) * P_N15 * (z : ℚ) * P_O17 +
   (y : ℚ) * P_H2 * (w : ℚ) * P_N15 * (z : ℚ) * P_O17 +
   (if 1 ≤ x then (x : ℚ) * P_C13 * (z : ℚ) * P_O18 else 0) +
   (if 1 ≤ y then (y : ℚ) * P_H2 * (z : ℚ) * P_O18 else 0) +
   (if 1 ≤ w then (w : ℚ) * P_N15 * (z : ℚ) * P_O18 else 0) +
   (if 2 ≤ z then (z.choose 2 : ℚ) * P_O17 * P_O18 else 0)) * 100

/-- `calculate_m_plus_3_probability` of the script. -/
def calculate_m_plus_3_probability (formula : String) : ℚ :=
  calculate_m_plus_3_of_counts (getCount (parse_formula formula) "C")
    (getCount (parse_formula formula) "H") (getCount (parse_formula formula) "N")
    (getCount (parse_formula formula) "O")

/-! ### Generating polynomials truncated to degree 3 (spec §4.3)

A polynomial is kept only up to degree 3 (`maxShift = 3`); `tmul` is the
truncated convolution and `tpow` the iterated convolution of §4.3 step 2. -/

structure Poly3 where
  c0 : ℚ
  c1 : ℚ
  c2 : ℚ
  c3 : ℚ

/-- Product of two polynomials truncated to degree 3. -/
def tmul (p q : Poly3) : Poly3 :=
  ⟨p.c0 * q.c0,
   p.c0 * q.c1 + p.c1 * q.c0,
   p.c0 * q.c2 + p.c1 * q.c1 + p.c2 * q.c0,
   p.c0 * q.c3 + p.c1 * q.c2 + p.c2 * q.c1 + p.c3 * q.c0⟩

/-- `n`-th truncated power: the polynomial of `n` independent atoms. -/
def tpow (p : Poly3) : ℕ → Poly3
  | 0 => ⟨1, 0, 0, 0⟩
  | n + 1 => tmul (tpow p n) p

/-- Modelled from the spec (§4.2, §4.3 step 1): the single-atom polynomial of
a one-heavy-isotope element — light-isotope probability at exponent 0, the
heavy-isotope probability at exponent 1. -/
def singleAtomPoly (light heavy : ℚ) : Poly3 := ⟨light, heavy, 0, 0⟩

/-- Modelled from the spec (§4.2, §4.3 step 1): the single-atom polynomial of
oxygen — light-isotope probability at exponent 0 and the two heavy-isotope
probabilities at their shifts 1 and 2. -/
def oxygenAtomPoly (light h1 h2 : ℚ) : Poly3 := ⟨light, h1, h2, 0⟩

/-- Modelled from the spec (§4.3 steps 1–3): the ensemble polynomial of a
composition with `x` carbons, `y` hydrogens, `w` nitrogens and `z` oxygens —
the product of the four single-atom polynomials raised to the atom counts,
truncated to degree 3. -/
def specEnsemble (x y w z : ℕ) : Poly3 :=
  tmul (tmul (tpow (singleAtomPoly N_C12 P_C13) x) (tpow (singleAtomPoly N_H1 P_H2) y))
    (tmul (tpow (singleAtomPoly N_N14 P_N15) w) (tpow (oxygenAtomPoly N_O16 P_O17 P_O18) z))

/-- The same ensemble polynomial with every light-isotope probability
replaced by `1` (the normalization the script drops). -/
def unitEnsemble (x y w z : ℕ) : Poly3 :=
  tmul (tmul (tpow (singleAtomPoly 1 P_C13) x) (tpow (singleAtomPoly 1 P_H2) y))
    (tmul (tpow (singleAtomPoly 1 P_N15) w) (tpow (oxygenAtomPoly 1 P_O17 P_O18) z))

/-! ### Token serialization (spec §4.1, §8)

Modelled from the spec: the spec's canonical token string of a composition
concatenates, per element, the symbol followed by a decimal rendering of its
count (the digits may be omitted for count 1).  A token is given here as the
symbol together with the digit characters of its count. -/

/-- A symbol of the element grammar of the script's regular expression:
one uppercase letter followed by lowercase letters. -/
def validSymB : List Char → Bool
  | [] => false
  | c :: rest => c.isUpper && rest.all Char.isLower

/-- The count a token denotes: 1 when the digits are absent. -/
def tokenCount (ds : List Char) : ℕ := if ds = [] then 1 else digitsVal ds

/-- Concatenation of serialized tokens (symbol then count digits). -/
def flatTokens : List (String × List Char) → List Char
  | [] => []
  | t :: ts => t.1.data ++ (t.2 ++ flatTokens ts)

/-- The count mapping a token list denotes: each symbol with the count of its
token. -/
def tokensToCounts (toks : List (String × List Char)) : List (String × ℕ) :=
  toks.map (fun t => (t.1, tokenCount t.2))

/-- The count of the last token carrying the given symbol, if any. -/
def lastCount : List (String × ℕ) → String → Option ℕ
  | [], _ => none
  | t :: ts, k =>
    match lastCount ts k with
    | some v => some v
    | none => if t.1 = k then some t.2 else none

/-! ### Eliminating the guards

Every `if`-guard in the script protects a term that is zero anyway when the
guard fails (a zero count or a vanishing binomial coefficient), so each
accumulation equals its unguarded sum. -/

theorem ite_cast_one (n : ℕ) (t : ℚ) : (if 1 ≤ n then (n : ℚ) * t else 0) = (n : ℚ) * t := by
  by_cases h : 1 ≤ n
  · rw [if_pos h]
  · rw [if_neg h]
    have : n = 0 := by omega
    subst this; simp

theorem ite_cast_single (m : ℕ) (t c u : ℚ) :
    (if 1 ≤ m then (m : ℚ) * t * c * u else 0) = (m : ℚ) * t * c * u := by
  by_cases h : 1 ≤ m
  · rw [if_pos h]
  · rw [if_neg h]
    have : m = 0 := by omega
    subst this; simp

theorem ite_cast_pair (m n : ℕ) (t u : ℚ) :
    (if 1 ≤ m ∧ 1 ≤ n then (m : ℚ) * t * (n : ℚ) * u else 0) = (m : ℚ) * t * (n : ℚ) * u := by
  by_cases h : 1 ≤ m ∧ 1 ≤ n
  · rw [if_pos h]
  · rw [if_neg h]
    by_cases hm : 1 ≤ m
    · by_cases hn : 1 ≤ n
      · exact absurd ⟨hm, hn⟩ h
      · have : n = 0 := by omega
        subst this; simp
    · have : m = 0 := by omega
      subst this; simp

theorem ite_choose_two (n : ℕ) (t : ℚ) :
    (if 2 ≤ n then (n.choose 2 : ℚ) * t else 0) = (n.choose 2 : ℚ) * t := by
  by_cases h : 2 ≤ n
  · rw [if_pos h]
  · rw [if_neg h, Nat.choose_eq_zero_of_lt (by omega)]; simp

theorem ite_choose_two_mul (n : ℕ) (t u : ℚ) :
    (if 2 ≤ n then (n.choose 2 : ℚ) * t * u else 0) = (n.choose 2 : ℚ) * t * u := by
  by_cases h : 2 ≤ n
  · rw [if_pos h]
  · rw [if_neg h, Nat.choose_eq_zero_of_lt (by omega)]; simp

theorem ite_choose_three (n : ℕ) (t : ℚ) :
    (if 3 ≤ n then (n.choose 3 : ℚ) * t else 0) = (n.choose 3 : ℚ) * t := by
  by_cases h : 3 ≤ n
  · rw [if_pos h]
  · rw [if_neg h, Nat.choose_eq_zero_of_lt (by omega)]; simp

theorem ite_choose_pair (m n : ℕ) (t u : ℚ) :
    (if 2 ≤ m ∧ 1 ≤ n then (m.choose 2 : ℚ) * t * (n : ℚ) * u else 0) =
      (m.choose 2 : ℚ) * t * (n : ℚ) * u := by
  by_cases h : 2 ≤ m ∧ 1 ≤ n
  · rw [if_pos h]
  · rw [if_neg h]
    by_cases hm : 2 ≤ m
    · by_cases hn : 1 ≤ n
      · exact absurd ⟨hm, hn⟩ h
      · have : n = 0 := by omega
        subst this; simp
    · rw [Nat.choose_eq_zero_of_lt (by omega)]; simp

theorem m2_counts_eq (x y w z : ℕ) :
    calculate_m_plus_2_of_counts x y w z =
      ((x.choose 2 : ℚ) * P_C13 ^ 2 + (y.choose 2 : ℚ) * P_H2 ^ 2 +
       (w.choose 2 : ℚ) * P_N15 ^ 2 + (z.choose 2 : ℚ) * P_O17 ^ 2 +
       (x : ℚ) * P_C13 * (y : ℚ) * P_H2 + (x : ℚ) * P_C13 * (w : ℚ) * P_N15 +
       (x : ℚ) * P_C13 * (z : ℚ) * P_O17 + (y : ℚ) * P_H2 * (w : ℚ) * P_N15 +
       (y : ℚ) * P_H2 * (z : ℚ) * P_O17 + (w : ℚ) * P_N15 * (z : ℚ) * P_O17 +
       (z : ℚ) * P_O18) * 100 := by
  unfold calculate_m_plus_2_of_counts
  rw [ite_choose_two, ite_choose_two, ite_choose_two, ite_choose_two,
    ite_cast_pair, ite_cast_pair, ite_cast_pair, ite_cast_pair, ite_cast_pair, ite_cast_pair,
    ite_cast_one]

theorem m3_counts_eq (x y w z : ℕ) :
    calculate_m_plus_3_of_counts x y w z =
      ((x.choose 3 : ℚ) * P_C13 ^ 3 + (y.choose 3 : ℚ) * P_H2 ^ 3 +
       (w.choose 3 : ℚ) * P_N15 ^ 3 + (z.choose 3 : ℚ) * P_O17 ^ 3 +
       (x.choose 2 : ℚ) * P_C13 ^ 2 * (y : ℚ) * P_H2 +
       (x.choose 2 : ℚ) * P_C13 ^ 2 * (w : ℚ) * P_N15 +
       (x.choose 2 : ℚ) * P_C13 ^ 2 * (z : ℚ) * P_O17 +
       (y.choose 2 : ℚ) * P_H2 ^ 2 * (x : ℚ) * P_C13 +
       (y.choose 2 : ℚ) * P_H2 ^ 2 * (w : ℚ) * P_N15 +
       (y.choose 2 : ℚ) * P_H2 ^ 2 * (z : ℚ) * P_O17 +
       (w.choose 2 : ℚ) * P_N15 ^ 2 * (x : ℚ) * P_C13 +
       (w.choose 2 : ℚ) * P_N15 ^ 2 * (y : ℚ) * P_H2 +
       (w.choose 2 : ℚ) * P_N15 ^ 2 * (z : ℚ) * P_O17 +
       (z.choose 2 : ℚ) * P_O17 ^ 2 * (x : ℚ) * P_C13 +
       (z.choose 2 : ℚ) * P_O17 ^ 2 * (y : ℚ) * P_H2 +
       (z.choose 2 : ℚ) * P_O17 ^ 2 * (w : ℚ) * P_N15 +
       (x : ℚ) * P_C13 * (y : ℚ) * P_H2 * (w : ℚ) * P_N15 +
       (x : ℚ) * P_C13 * (y : ℚ) * P_H2 * (z : ℚ) * P_O17 +
       (x : ℚ) * P_C13 * (w : ℚ) * P_N15 * (z : ℚ) * P_O17 +
       (y : ℚ) * P_H2 * (w : ℚ) * P_N15 * (z : ℚ) * P_O17 +
       (x : ℚ) * P_C13 * (z : ℚ) * P_O18 + (y : ℚ) * P_H2 * (z : ℚ) * P_O18 +
       (w : ℚ) * P_N15 * (z : ℚ) * P_O18 +
       (z.choose 2 : ℚ) * P_O17 * P_O18) * 100 := by
  unfold calculate_m_plus_3_of_counts
  rw [ite_choose_three, ite_choose_three, ite_choose_three, ite_choose_three,
    ite_choose_pair, ite_choose_pair, ite_choose_pair, ite_choose_pair, ite_choose_pair,
    ite_choose_pair, ite_choose_pair, ite_choose_pair, ite_choose_pair, ite_choose_pair,
    ite_choose_pair, ite_choose_pair,
    ite_cast_single, ite_cast_single, ite_cast_single,
    ite_choose_two_mul]

theorem cast_choose_succ_two (n : ℕ) :
    ((n + 1).choose 2 : ℚ) = (n.choose 2 : ℚ) + n := by
  have hstep : Nat.choose (n + 1) 2 = Nat.choose n 1 + Nat.choose n 2 := rfl
  rw [hstep, Nat.choose_one_right]
  push_cast
  ring

theorem cast_choose_succ_three (n : ℕ) :
    ((n + 1).choose 3 : ℚ) = (n.choose 3 : ℚ) + (n.choose 2 : ℚ) := by
  have hstep : Nat.choose (n + 1) 3 = Nat.choose n 2 + Nat.choose n 3 := rfl
  rw [hstep]
  push_cast
  ring

/-- Truncated powers of a one-heavy-isotope polynomial with unit light term. -/
theorem tpow_single_unit (p : ℚ) (n : ℕ) :
    tpow (singleAtomPoly 1 p) n =
      ⟨1, (n : ℚ) * p, (n.choose 2 : ℚ) * p ^ 2, (n.choose 3 : ℚ) * p ^ 3⟩ := by
  induction n with
  | zero =>
      show (⟨1, 0, 0, 0⟩ : Poly3) = _
      have h2 : Nat.choose 0 2 = 0 := rfl
      have h3 : Nat.choose 0 3 = 0 := rfl
      rw [h2, h3]
      norm_num
  | succ n ih =>
      show tmul (tpow (singleAtomPoly 1 p) n) (singleAtomPoly 1 p) = _
      rw [ih]
      simp only [tmul, singleAtomPoly, Poly3.mk.injEq]
      refine ⟨by ring, by push_cast; ring, ?_, ?_⟩
      · rw [cast_choose_succ_two]
        ring
      · rw [cast_choose_succ_three]
        ring

/-- Truncated powers of the oxygen polynomial with unit light term. -/
theorem tpow_oxygen_unit (a b : ℚ) (n : ℕ) :
    tpow (oxygenAtomPoly 1 a b) n =
      ⟨1, (n : ℚ) * a, (n.choose 2 : ℚ) * a ^ 2 + (n : ℚ) * b,
        (n.choose 3 : ℚ) * a ^ 3 + 2 * (n.choose 2 : ℚ) * a * b⟩ := by
  induction n with
  | zero =>
      show (⟨1, 0, 0, 0⟩ : Poly3) = _
      have h2 : Nat.choose 0 2 = 0 := rfl
      have h3 : Nat.choose 0 3 = 0 := rfl
      rw [h2, h3]
      norm_num
  | succ n ih =>
      show tmul (tpow (oxygenAtomPoly 1 a b) n) (oxygenAtomPoly 1 a b) = _
      rw [ih]
      simp only [tmul, oxygenAtomPoly, Poly3.mk.injEq]
      refine ⟨by ring, by push_cast; ring, ?_, ?_⟩
      · rw [cast_choose_succ_two]
        push_cast
        ring
      · rw [cast_choose_succ_three, cast_choose_succ_two]
        ring

/-! ### Character classes of the regular expression -/

theorem digit_not_lower {c : Char} (h : c.isDigit = true) : c.isLower = false := by
  simp only [Char.isDigit, Bool.and_eq_true, decide_eq_true_eq] at h
  have h97 : ¬ (97 ≤ c.val) := by
    simp only [UInt32.le_def, BitVec.le_def] at h ⊢
    have e1 : ((48 : UInt32)).toBitVec.toNat = 48 := rfl
    have e2 : ((57 : UInt32)).toBitVec.toNat = 57 := rfl
    have e3 : ((97 : UInt32)).toBitVec.toNat = 97 := rfl
    rw [e1, e2] at h
    rw [e3]
    omega
  simp [Char.isLower, decide_eq_false h97]

theorem upper_not_lower {c : Char} (h : c.isUpper = true) : c.isLower = false := by
  simp only [Char.isUpper, Bool.and_eq_true, decide_eq_true_eq] at h
  have h97 : ¬ (97 ≤ c.val) := by
    simp only [UInt32.le_def, BitVec.le_def] at h ⊢
    have e1 : ((65 : UInt32)).toBitVec.toNat = 65 := rfl
    have e2 : ((90 : UInt32)).toBitVec.toNat = 90 := rfl
    have e3 : ((97 : UInt32)).toBitVec.toNat = 97 := rfl
    rw [e1, e2] at h
    rw [e3]
    omega
  simp [Char.isLower, decide_eq_false h97]

theorem upper_not_digit {c : Char} (h : c.isUpper = true) : c.isDigit = false := by
  simp only [Char.isUpper, Bool.and_eq_true, decide_eq_true_eq] at h
  have h48 : ¬ (48 ≤ c.val ∧ c.val ≤ 57) := by
    simp only [UInt32.le_def, BitVec.le_def] at h ⊢
    have e1 : ((65 : UInt32)).toBitVec.toNat = 65 := rfl
    have e2 : ((90 : UInt32)).toBitVec.toNat = 90 := rfl
    have e3 : ((48 : UInt32)).toBitVec.toNat = 48 := rfl
    have e4 : ((57 : UInt32)).toBitVec.toNat = 57 := rfl
    rw [e1, e2] at h
    rw [e3, e4]
    omega
  simp only [Char.isDigit]
  rcases Decidable.not_and_iff_or_not.mp h48 with hl | hr
  · simp [decide_eq_false hl]
  · simp [decide_eq_false hr]

/-! ### Scanning lemmas -/

theorem takeWhile_append_eq (p : Char → Bool) (l1 l2 : List Char)
    (h1 : ∀ c ∈ l1, p c = true) (h2 : ∀ c, l2.head? = some c → p c = false) :
    (l1 ++ l2).takeWhile p = l1 ∧ (l1 ++ l2).dropWhile p = l2 := by
  induction l1 with
  | nil =>
      simp only [List.nil_append]
      cases l2 with
      | nil => exact ⟨rfl, rfl⟩
      | cons d l =>
          have hd : p d = false := h2 d rfl
          exact ⟨by simp [List.takeWhile_cons, hd], by simp [List.dropWhile_cons, hd]⟩
  | cons a l1 ih =>
      have ha : p a = true := h1 a (List.mem_cons_self a l1)
      have ih' := ih (fun c hc => h1 c (List.mem_cons_of_mem a hc))
      constructor
      · simp only [List.cons_append, List.takeWhile_cons, ha, if_true, ih'.1]
      · simp only [List.cons_append, List.dropWhile_cons, ha, if_true]
        exact ih'.2

theorem scanAux_congr :
    ∀ (f : ℕ) (cs : List Char) (g : ℕ), cs.length ≤ f → cs.length ≤ g →
      scanAux f cs = scanAux g cs := by
  intro f
  induction f with
  | zero =>
      intro cs g h1 _
      have : cs = [] := List.eq_nil_of_length_eq_zero (Nat.le_zero.mp h1)
      subst this
      cases g <;> rfl
  | succ n ih =>
      intro cs g h1 h2
      cases cs with
      | nil => cases g <;> rfl
      | cons c rest =>
          cases g with
          | zero => simp at h2
          | succ m =>
              simp only [scanAux]
              have hr : rest.length ≤ n := by
                simpa using Nat.le_of_succ_le_succ h1
              have hr' : rest.length ≤ m := by
                simpa using Nat.le_of_succ_le_succ h2
              by_cases hc : c.isUpper
              · rw [if_pos hc, if_pos hc]
                congr 1
                have hd1 : ((rest.dropWhile Char.isLower).dropWhile Char.isDigit).length ≤
                    rest.length :=
                  le_trans (List.dropWhile_sublist Char.isDigit).length_le
                    (List.dropWhile_sublist Char.isLower).length_le
                exact ih _ m (le_trans hd1 hr) (le_trans hd1 hr')
              · rw [if_neg hc, if_neg hc]
                exact ih rest m hr hr'

theorem scanTokens_cons (c : Char) (rest : List Char) :
    scanTokens (c :: rest) =
      if c.isUpper then
        (String.mk (c :: rest.takeWhile Char.isLower),
          if (rest.dropWhile Char.isLower).takeWhile Char.isDigit = [] then 1
          else digitsVal ((rest.dropWhile Char.isLower).takeWhile Char.isDigit)) ::
          scanTokens ((rest.dropWhile Char.isLower).dropWhile Char.isDigit)
      else scanTokens rest := by
  show scanAux (c :: rest).length (c :: rest) = _
  rw [List.length_cons]
  simp only [scanAux]
  by_cases hc : c.isUpper
  · rw [if_pos hc, if_pos hc]
    congr 1
    have hd1 : ((rest.dropWhile Char.isLower).dropWhile Char.isDigit).length ≤ rest.length :=
      le_trans (List.dropWhile_sublist Char.isDigit).length_le
        (List.dropWhile_sublist Char.isLower).length_le
    exact scanAux_congr rest.length _ _ hd1 le_rfl
  · rw [if_neg hc, if_neg hc]
    rfl

theorem scanTokens_no_upper :
    ∀ cs : List Char, (∀ c ∈ cs, c.isUpper = false) → scanTokens cs = [] := by
  intro cs
  induction cs with
  | nil => intro _; rfl
  | cons c rest ih =>
      intro h
      rw [scanTokens_cons, if_neg (by simp [h c (List.mem_cons_self c rest)])]
      exact ih (fun d hd => h d (List.mem_cons_of_mem c hd))

/-- Scanning one serialized token followed by anything that starts with an
uppercase letter (or nothing) yields the token and the scan of the tail. -/
theorem scanTokens_token (sym : String) (ds : List Char) (rest : List Char)
    (hsym : validSymB sym.data = true)
    (hds : ∀ c ∈ ds, c.isDigit = true)
    (hrest : ∀ c, rest.head? = some c → c.isUpper = true) :
    scanTokens (sym.data ++ (ds ++ rest)) = (sym, tokenCount ds) :: scanTokens rest := by
  cases hsd : sym.data with
  | nil => rw [hsd] at hsym; exact absurd hsym (by simp [validSymB])
  | cons u lows =>
      rw [hsd] at hsym
      simp only [validSymB, Bool.and_eq_true, List.all_eq_true] at hsym
      obtain ⟨hu, hlows⟩ := hsym
      have hheadrest : ∀ c, rest.head? = some c → c.isLower = false ∧ c.isDigit = false :=
        fun c hc => ⟨upper_not_lower (hrest c hc), upper_not_digit (hrest c hc)⟩
      have hstep1 := takeWhile_append_eq Char.isLower lows (ds ++ rest)
        (fun c hc => hlows c hc)
        (by
          intro c hc
          cases ds with
          | nil => exact (hheadrest c (by simpa using hc)).1
          | cons d ds' =>
              have hdc : d = c := by simpa using hc
              exact hdc ▸ digit_not_lower (hds d (List.mem_cons_self d ds')))
      have hstep2 := takeWhile_append_eq Char.isDigit ds rest
        (fun c hc => hds c hc)
        (fun c hc => (hheadrest c hc).2)
      rw [List.cons_append, scanTokens_cons, if_pos hu, hstep1.1, hstep1.2, hstep2.1, hstep2.2]
      have hsymeq : String.mk (u :: lows) = sym := by
        rw [← hsd]
      rw [hsymeq, tokenCount]

/-! ### Dict lemmas -/

theorem insertDict_fresh :
    ∀ (acc : List (String × ℕ)) (t : String × ℕ), (∀ p ∈ acc, p.1 ≠ t.1) →
      insertDict acc t = acc ++ [t] := by
  intro acc
  induction acc with
  | nil => intro t _; rfl
  | cons p acc ih =>
      intro t h
      obtain ⟨k, v⟩ := p
      have hk : k ≠ t.1 := h (k, v) (List.mem_cons_self _ _)
      simp only [insertDict, if_neg hk, List.cons_append]
      rw [ih t (fun q hq => h q (List.mem_cons_of_mem _ hq))]

theorem foldl_insertDict_fresh :
    ∀ (ts acc : List (String × ℕ)),
      ((acc ++ ts).map Prod.fst).Nodup →
      List.foldl insertDict acc ts = acc ++ ts := by
  intro ts
  induction ts with
  | nil => intro acc _; simp
  | cons t ts ih =>
      intro acc hnd
      have hfresh : ∀ p ∈ acc, p.1 ≠ t.1 := by
        intro p hp heq
        have hsplit : ((acc.map Prod.fst) ++ (t.1 :: ts.map Prod.fst)).Nodup := by
          simpa using hnd
        have hdisj := List.disjoint_of_nodup_append hsplit
        exact hdisj (List.mem_map_of_mem Prod.fst hp) (by simp [heq])
      show List.foldl insertDict (insertDict acc t) ts = acc ++ t :: ts
      rw [insertDict_fresh acc t hfresh]
      have : (acc ++ [t]) ++ ts = acc ++ t :: ts := by simp
      rw [← this]
      exact ih (acc ++ [t]) (by simpa using hnd)

theorem buildDict_nodup (ts : List (String × ℕ)) (h : (ts.map Prod.fst).Nodup) :
    buildDict ts = ts := by
  have := foldl_insertDict_fresh ts [] (by simpa using h)
  simpa [buildDict] using this

theorem lookupDict_insertDict (acc : List (String × ℕ)) (t : String × ℕ) (k : String) :
    lookupDict (insertDict acc t) k = if t.1 = k then some t.2 else lookupDict acc k := by
  induction acc with
  | nil =>
      by_cases h : t.1 = k
      · simp [insertDict, lookupDict, h]
      · simp [insertDict, lookupDict, h]
  | cons p acc ih =>
      obtain ⟨k1, v1⟩ := p
      by_cases hk : k1 = t.1
      · by_cases h : t.1 = k
        · simp [insertDict, lookupDict, hk, h, hk.trans h]
        · have hk1 : ¬ (k1 = k) := fun he => h (hk.symm.trans he)
          simp [insertDict, lookupDict, hk, h, hk1]
      · by_cases h : k1 = k
        · have ht : ¬ (t.1 = k) := fun he => hk (h.trans he.symm)
          have hk2 : ¬ (k = t.1) := fun he => hk (h.trans he)
          simp [insertDict, lookupDict, hk, h, ht, hk2]
        · simp [insertDict, lookupDict, hk, h, ih]

theorem lookupDict_foldl_insertDict :
    ∀ (ts acc : List (String × ℕ)) (k : String),
      lookupDict (List.foldl insertDict acc ts) k =
        match lastCount ts k with
        | some v => some v
        | none => lookupDict acc k := by
  intro ts
  induction ts with
  | nil => intro acc k; rfl
  | cons t ts ih =>
      intro acc k
      show lookupDict (List.foldl insertDict (insertDict acc t) ts) k = _
      rw [ih (insertDict acc t) k, lookupDict_insertDict]
      simp only [lastCount]
      cases lastCount ts k with
      | some v => rfl
      | none =>
          by_cases h : t.1 = k
          · simp [h]
          · simp [h]

/-- The dict built by `parse_formula` maps a symbol to the count of its
**last** token in the scan. -/
theorem lookup_buildDict_last (ts : List (String × ℕ)) (k : String) :
    lookupDict (buildDict ts) k = lastCount ts k := by
  rw [buildDict, lookupDict_foldl_insertDict]
  cases lastCount ts k with
  | some v => rfl
  | none => rfl

/-! ### Further helper lemmas for the claims -/

theorem cast_choose_three (n : ℕ) :
    (n.choose 3 : ℚ) = (n : ℚ) * ((n : ℚ) - 1) * ((n : ℚ) - 2) / 6 := by
  induction n with
  | zero =>
      have h : Nat.choose 0 3 = 0 := rfl
      rw [h]
      norm_num
  | succ n ih =>
      rw [cast_choose_succ_three, ih, Nat.cast_choose_two]
      push_cast
      ring

/-- The head of a serialized token list is an uppercase letter. -/
theorem flatTokens_head_upper :
    ∀ toks : List (String × List Char), (∀ t ∈ toks, validSymB t.1.data = true) →
      ∀ c, (flatTokens toks).head? = some c → c.isUpper = true := by
  intro toks htoks c hc
  cases toks with
  | nil => simp [flatTokens] at hc
  | cons t ts =>
      have hsym := htoks t (List.mem_cons_self t ts)
      cases hsd : t.1.data with
      | nil => rw [hsd] at hsym; exact absurd hsym (by simp [validSymB])
      | cons u lows =>
          rw [hsd] at hsym
          simp only [validSymB, Bool.and_eq_true] at hsym
          have : (flatTokens (t :: ts)).head? = some u := by
            show ((t.1.data ++ (t.2 ++ flatTokens ts))).head? = some u
            rw [hsd]
            rfl
          rw [this] at hc
          obtain rfl : u = c := by simpa using hc
          exact hsym.1

/-- Scanning a concatenation of serialized tokens recovers exactly the
tokens. -/
theorem scan_flatTokens :
    ∀ toks : List (String × List Char),
      (∀ t ∈ toks, validSymB t.1.data = true) →
      (∀ t ∈ toks, ∀ c ∈ t.2, c.isDigit = true) →
      scanTokens (flatTokens toks) = tokensToCounts toks := by
  intro toks
  induction toks with
  | nil => intro _ _; rfl
  | cons t ts ih =>
      intro hsym hdig
      show scanTokens (t.1.data ++ (t.2 ++ flatTokens ts)) = _
      rw [scanTokens_token t.1 t.2 (flatTokens ts) (hsym t (List.mem_cons_self t ts))
        (hdig t (List.mem_cons_self t ts))
        (flatTokens_head_upper ts (fun u hu => hsym u (List.mem_cons_of_mem t hu)))]
      rw [ih (fun u hu => hsym u (List.mem_cons_of_mem t hu))
        (fun u hu => hdig u (List.mem_cons_of_mem t hu))]
      rfl

/-! ### The claims -/

/-- C1 (counterexample): the manual enumeration does **not** return 100 times
the coefficients of the ensemble polynomial of §4.3 built from the true
single-atom polynomials (light-isotope probability at exponent 0): already for
the composition of two carbon atoms, the script returns `2·P_C13·100 = 2.14`
while the ensemble coefficient at exponent 1 is `2·N_C12·P_C13`, giving
`2.1162674` — the script omits the light-isotope factors. -/
theorem C1_manual_vs_spec_convolution_counterexample :
    calculate_m_plus_1_of_counts 2 0 0 0 ≠ 100 * (specEnsemble 2 0 0 0).c1 := by
  have h2p : ∀ p : Poly3, tpow p 2 = tmul (tmul ⟨1, 0, 0, 0⟩ p) p := fun p => rfl
  have h0p : ∀ p : Poly3, tpow p 0 = ⟨1, 0, 0, 0⟩ := fun p => rfl
  unfold specEnsemble
  rw [h2p, h0p, h0p, h0p]
  norm_num [tmul, singleAtomPoly, oxygenAtomPoly, calculate_m_plus_1_of_counts,
    P_C13, P_H2, P_N15, P_O17, N_C12, N_H1, N_N14, N_O16]

/-- C1 (amended): for every composition over the four table elements, the
three functions return 100 times the coefficients at exponents 1, 2, 3 of the
ensemble polynomial in which every light-isotope probability is replaced
by 1 — except that the script's `¹⁷O + ¹⁸O` pair term of M+3 is
`C(z,2)·P_O17·P_O18` where the convolution has `2·C(z,2)·P_O17·P_O18`, so the
M+3 value is the coefficient minus `C(z,2)·P_O17·P_O18`. -/
theorem C1_manual_enumeration_unit_convolution (x y w z : ℕ) :
    calculate_m_plus_1_of_counts x y w z = 100 * (unitEnsemble x y w z).c1 ∧
    calculate_m_plus_2_of_counts x y w z = 100 * (unitEnsemble x y w z).c2 ∧
    calculate_m_plus_3_of_counts x y w z =
      100 * ((unitEnsemble x y w z).c3 - (z.choose 2 : ℚ) * P_O17 * P_O18) := by
  unfold unitEnsemble
  rw [tpow_single_unit, tpow_single_unit, tpow_single_unit, tpow_oxygen_unit]
  refine ⟨?_, ?_, ?_⟩
  · unfold calculate_m_plus_1_of_counts
    simp only [tmul]
    ring
  · rw [m2_counts_eq]
    simp only [tmul]
    ring
  · rw [m3_counts_eq]
    simp only [tmul]
    ring

/-- C2 (counterexample): the distribution computation does **not** fail on
"C6H12S": sulfur is silently ignored and the full numeric result of "C6H12"
is returned. -/
theorem C2_unknown_element_counterexample :
    calculate_m_plus_1_probability "C6H12S" = calculate_m_plus_1_probability "C6H12" ∧
    calculate_m_plus_1_probability "C6H12S" = 8259 / 1250 := by
  have hS : parse_formula "C6H12S" = [("C", 6), ("H", 12), ("S", 1)] := by decide
  have hT : parse_formula "C6H12" = [("C", 6), ("H", 12)] := by decide
  unfold calculate_m_plus_1_probability
  rw [hS, hT]
  have e1 : getCount [("C", 6), ("H", 12), ("S", 1)] "C" = 6 := by decide
  have e2 : getCount [("C", 6), ("H", 12), ("S", 1)] "H" = 12 := by decide
  have e3 : getCount [("C", 6), ("H", 12), ("S", 1)] "N" = 0 := by decide
  have e4 : getCount [("C", 6), ("H", 12), ("S", 1)] "O" = 0 := by decide
  have f1 : getCount [("C", 6), ("H", 12)] "C" = 6 := by decide
  have f2 : getCount [("C", 6), ("H", 12)] "H" = 12 := by decide
  have f3 : getCount [("C", 6), ("H", 12)] "N" = 0 := by decide
  have f4 : getCount [("C", 6), ("H", 12)] "O" = 0 := by decide
  rw [e1, e2, e3, e4, f1, f2, f3, f4]
  norm_num [calculate_m_plus_1_of_counts, P_C13, P_H2, P_N15, P_O17]

/-- C2 (amended): no error is possible — the three probability functions
depend only on the parsed counts of C, H, N and O, so a formula with an
element outside the table yields the same result as the formula with that
element removed (unknown elements are silently ignored). -/
theorem C2_unknown_elements_ignored (s t : String)
    (hC : getCount (parse_formula s) "C" = getCount (parse_formula t) "C")
    (hH : getCount (parse_formula s) "H" = getCount (parse_formula t) "H")
    (hN : getCount (parse_formula s) "N" = getCount (parse_formula t) "N")
    (hO : getCount (parse_formula s) "O" = getCount (parse_formula t) "O") :
    calculate_m_plus_1_probability s = calculate_m_plus_1_probability t ∧
    calculate_m_plus_2_probability s = calculate_m_plus_2_probability t ∧
    calculate_m_plus_3_probability s = calculate_m_plus_3_probability t := by
  unfold calculate_m_plus_1_probability calculate_m_plus_2_probability
    calculate_m_plus_3_probability
  rw [hC, hH, hN, hO]
  exact ⟨rfl, rfl, rfl⟩

/-- C2 (witness): instantiation of `C2_unknown_elements_ignored` at "C6H12S"
and "C6H12". -/
theorem C2_unknown_elements_ignored_witness :
    calculate_m_plus_1_probability "C6H12S" = calculate_m_plus_1_probability "C6H12" ∧
    calculate_m_plus_2_probability "C6H12S" = calculate_m_plus_2_probability "C6H12" ∧
    calculate_m_plus_3_probability "C6H12S" = calculate_m_plus_3_probability "C6H12" :=
  C2_unknown_elements_ignored "C6H12S" "C6H12" (by decide) (by decide) (by decide) (by decide)

/-- C3 (counterexample): parsing "23CH4" does **not** fail — it returns the
count mapping `{C: 1, H: 4}` (the leading digits are silently skipped). -/
theorem C3_malformed_counterexample :
    parse_formula "23CH4" = [("C", 1), ("H", 4)] := by
  decide

/-- C3 (amended): parsing never fails; characters that cannot start or extend
a token are silently skipped, so "23CH4" parses like "CH4" and "c6h12o6"
(no uppercase letter) parses to the empty mapping. -/
theorem C3_malformed_inputs_skipped :
    parse_formula "c6h12o6" = [] ∧
    parse_formula "23CH4" = parse_formula "CH4" ∧
    parse_formula "CH4" = [("C", 1), ("H", 4)] := by
  refine ⟨by decide, by decide, by decide⟩

/-- C4: single-atom distributions equal the per-atom isotope profile: for
{C:1}, M+1 is exactly 1.0700 % and M+2, M+3 are 0; for {O:1}, M+1 = 0.037 %
and M+2 = 0.204 %. -/
theorem C4_single_atom_profiles :
    calculate_m_plus_1_of_counts 1 0 0 0 = 107 / 100 ∧
    calculate_m_plus_2_of_counts 1 0 0 0 = 0 ∧
    calculate_m_plus_3_of_counts 1 0 0 0 = 0 ∧
    calculate_m_plus_1_of_counts 0 0 0 1 = 37 / 1000 ∧
    calculate_m_plus_2_of_counts 0 0 0 1 = 204 / 1000 := by
  refine ⟨?_, ?_, ?_, ?_, ?_⟩ <;>
    norm_num [calculate_m_plus_1_of_counts, calculate_m_plus_2_of_counts,
      calculate_m_plus_3_of_counts, P_C13, P_H2, P_N15, P_O17, P_O18]

/-- C5 (counterexample): the returned percentages are **not** bounded by 100:
for 94 carbon atoms the M+1 "probability" is 100.58 %. -/
theorem C5_percentage_bound_counterexample :
    100 < calculate_m_plus_1_of_counts 94 0 0 0 := by
  norm_num [calculate_m_plus_1_of_counts, P_C13, P_H2, P_N15, P_O17]

/-- C5 (amended): every computed shift probability is non-negative; the upper
bound of 100 and the sum-to-1 property fail because the script omits the
light-isotope normalization (see `C5_percentage_bound_counterexample`). -/
theorem C5_probabilities_nonneg (x y w z : ℕ) :
    0 ≤ calculate_m_plus_1_of_counts x y w z ∧
    0 ≤ calculate_m_plus_2_of_counts x y w z ∧
    0 ≤ calculate_m_plus_3_of_counts x y w z := by
  refine ⟨?_, ?_, ?_⟩
  · unfold calculate_m_plus_1_of_counts
    simp only [P_C13, P_H2, P_N15, P_O17]
    positivity
  · rw [m2_counts_eq]
    simp only [P_C13, P_H2, P_N15, P_O17, P_O18]
    positivity
  · rw [m3_counts_eq]
    simp only [P_C13, P_H2, P_N15, P_O17, P_O18]
    positivity

/-- C6 (counterexample): a repeated symbol does **not** accumulate: the string
"CC2" (tokens "C" and "C2") parses to count 2 for C, not 3. -/
theorem C6_accumulation_counterexample :
    parse_formula "CC2" = [("C", 2)] ∧ getCount (parse_formula "CC2") "C" ≠ 3 := by
  refine ⟨by decide, by decide⟩

/-- C6 (amended): when a symbol occurs more than once in the formula string,
the dict comprehension overwrites: the resulting count for a symbol is the
count of its **last** occurrence in the token scan, not the sum. -/
theorem C6_repeated_symbol_last_occurrence (s : String) (k : String) :
    lookupDict (parse_formula s) k = lastCount (scanTokens s.data) k := by
  unfold parse_formula
  exact lookup_buildDict_last (scanTokens s.data) k

/-- C7 (counterexample): the round-trip fails when a symbol repeats: the
token concatenation "HH2" was generated by counts summing to 3 for H, but
parses to count 2. -/
theorem C7_roundtrip_counterexample :
    parse_formula "HH2" = [("H", 2)] ∧ parse_formula "HH2" ≠ [("H", 3)] := by
  refine ⟨by decide, by decide⟩

/-- C7 (amended): for every well-formed concatenation of valid
symbol/digit-string tokens whose symbols are pairwise distinct,
`parse_formula` recovers exactly the tokens' counts; in particular the
canonical serialization of any composition (each symbol once) re-parses to
the same composition.  With a repeated symbol only the last token's count
survives (`C7_roundtrip_counterexample`). -/
theorem C7_roundtrip_distinct_symbols (toks : List (String × List Char))
    (hsym : ∀ t ∈ toks, validSymB t.1.data = true)
    (hdig : ∀ t ∈ toks, ∀ c ∈ t.2, c.isDigit = true)
    (hnd : (toks.map Prod.fst).Nodup) :
    parse_formula (String.mk (flatTokens toks)) = tokensToCounts toks := by
  unfold parse_formula
  have hdata : (String.mk (flatTokens toks)).data = flatTokens toks := rfl
  rw [hdata, scan_flatTokens toks hsym hdig]
  apply buildDict_nodup
  have hkeys : (tokensToCounts toks).map Prod.fst = toks.map Prod.fst := by
    simp [tokensToCounts, List.map_map, Function.comp]
  rw [hkeys]
  exact hnd

/-- C7 (witness): instantiation at the tokens of "C23H45NO4", recovering
{C: 23, H: 45, N: 1, O: 4} exactly. -/
theorem C7_roundtrip_distinct_symbols_witness :
    parse_formula "C23H45NO4" = [("C", 23), ("H", 45), ("N", 1), ("O", 4)] := by
  have h := C7_roundtrip_distinct_symbols
    [("C", ['2', '3']), ("H", ['4', '5']), ("N", []), ("O", ['4'])]
    (by decide) (by decide) (by decide)
  have hs : String.mk (flatTokens
      [("C", ['2', '3']), ("H", ['4', '5']), ("N", []), ("O", ['4'])]) = "C23H45NO4" := by
    decide
  have hc : tokensToCounts
      [("C", ['2', '3']), ("H", ['4', '5']), ("N", []), ("O", ['4'])] =
      [("C", 23), ("H", 45), ("N", 1), ("O", 4)] := by
    decide
  rw [hs, hc] at h
  exact h

/-- C8 (counterexample): carbon count at least 10 does **not** force monotonic
decay: for the composition C10O70 the M+2 value (≈ 15.11 %) exceeds the M+1
value (13.29 %), because each oxygen contributes its ¹⁸O abundance directly
to M+2. -/
theorem C8_monotonic_decay_counterexample :
    calculate_m_plus_1_of_counts 10 0 0 70 < calculate_m_plus_2_of_counts 10 0 0 70 := by
  rw [m2_counts_eq]
  have c1 : Nat.choose 10 2 = 45 := by decide
  have c2 : Nat.choose 70 2 = 2415 := by decide
  have c3 : Nat.choose 0 2 = 0 := rfl
  rw [c1, c2, c3]
  norm_num [calculate_m_plus_1_of_counts, P_C13, P_H2, P_N15, P_O17, P_O18]

/-- C8 (amended): monotonic decay `M+1 > M+2 > M+3` holds for every
carbon-only composition with 10 ≤ x ≤ 187 carbons (beyond 187 carbons even a
pure-carbon composition violates `M+1 > M+2`; large oxygen counts violate it
too, see `C8_monotonic_decay_counterexample`). -/
theorem C8_monotonic_decay_carbon_range (x : ℕ) (hlo : 10 ≤ x) (hhi : x ≤ 187) :
    calculate_m_plus_2_of_counts x 0 0 0 < calculate_m_plus_1_of_counts x 0 0 0 ∧
    calculate_m_plus_3_of_counts x 0 0 0 < calculate_m_plus_2_of_counts x 0 0 0 := by
  have c02 : Nat.choose 0 2 = 0 := rfl
  have c03 : Nat.choose 0 3 = 0 := rfl
  have e1 : calculate_m_plus_1_of_counts x 0 0 0 = (x : ℚ) * P_C13 * 100 := by
    unfold calculate_m_plus_1_of_counts
    push_cast
    ring
  have e2 : calculate_m_plus_2_of_counts x 0 0 0 = (x.choose 2 : ℚ) * P_C13 ^ 2 * 100 := by
    rw [m2_counts_eq]
    push_cast [c02]
    ring
  have e3 : calculate_m_plus_3_of_counts x 0 0 0 = (x.choose 3 : ℚ) * P_C13 ^ 3 * 100 := by
    rw [m3_counts_eq]
    push_cast [c02, c03]
    ring
  rw [e1, e2, e3, Nat.cast_choose_two, cast_choose_three]
  simp only [P_C13]
  have hq1 : (10 : ℚ) ≤ (x : ℚ) := by exact_mod_cast hlo
  have hq2 : ((x : ℚ)) ≤ 187 := by exact_mod_cast hhi
  constructor
  · have hpos : (0 : ℚ) < (x : ℚ) := by linarith
    have hfac : (0 : ℚ) < (107 / 10000) * (2 - ((x : ℚ) - 1) * (107 / 10000)) := by nlinarith
    nlinarith [mul_pos hpos hfac]
  · have hpos2 : (0 : ℚ) < (x : ℚ) * ((x : ℚ) - 1) := by nlinarith
    have hfac2 : (0 : ℚ) < (107 / 10000) ^ 2 * (3 - ((x : ℚ) - 2) * (107 / 10000)) := by
      nlinarith
    nlinarith [mul_pos hpos2 hfac2]

/-- C8 (witness): instantiation of `C8_monotonic_decay_carbon_range` at 23
carbons. -/
theorem C8_monotonic_decay_carbon_range_witness :
    10 ≤ 23 ∧ 23 ≤ 187 ∧
    (calculate_m_plus_2_of_counts 23 0 0 0 < calculate_m_plus_1_of_counts 23 0 0 0 ∧
     calculate_m_plus_3_of_counts 23 0 0 0 < calculate_m_plus_2_of_counts 23 0 0 0) :=
  ⟨by decide, by decide, C8_monotonic_decay_carbon_range 23 (by decide) (by decide)⟩

/-- C9 (counterexample): the M+2 value of "C23H45NO4" is ≈ 4.018 %, not
approximately 3.1 %: it exceeds 3.1 by more than 0.7. -/
theorem C9_regression_counterexample :
    31 / 10 + 7 / 10 < calculate_m_plus_2_probability "C23H45NO4" := by
  have h : parse_formula "C23H45NO4" = [("C", 23), ("H", 45), ("N", 1), ("O", 4)] := by decide
  unfold calculate_m_plus_2_probability
  rw [h]
  have hC : getCount [("C", 23), ("H", 45), ("N", 1), ("O", 4)] "C" = 23 := by decide
  have hH : getCount [("C", 23), ("H", 45), ("N", 1), ("O", 4)] "H" = 45 := by decide
  have hN : getCount [("C", 23), ("H", 45), ("N", 1), ("O", 4)] "N" = 1 := by decide
  have hO : getCount [("C", 23), ("H", 45), ("N", 1), ("O", 4)] "O" = 4 := by decide
  rw [hC, hH, hN, hO, m2_counts_eq]
  have c1 : Nat.choose 23 2 = 253 := by decide
  have c2 : Nat.choose 45 2 = 990 := by decide
  have c3 : Nat.choose 1 2 = 0 := by decide
  have c4 : Nat.choose 4 2 = 6 := by decide
  rw [c1, c2, c3, c4]
  norm_num [P_C13, P_H2, P_N15, P_O17, P_O18]

/-- C9 (amended): the exact values for "C23H45NO4" are
M+1 = 25.825 %, M+2 = 4.018241364 %, M+3 ≈ 0.46378 % (not ≈ 25.0, 3.1,
0.3). -/
theorem C9_end_to_end_values :
    calculate_m_plus_1_probability "C23H45NO4" = 1033 / 40 ∧
    calculate_m_plus_2_probability "C23H45NO4" = 1004560341 / 250000000 ∧
    calculate_m_plus_3_probability "C23H45NO4" = 57972594027253 / 125000000000000 := by
  have h : parse_formula "C23H45NO4" = [("C", 23), ("H", 45), ("N", 1), ("O", 4)] := by decide
  have hC : getCount [("C", 23), ("H", 45), ("N", 1), ("O", 4)] "C" = 23 := by decide
  have hH : getCount [("C", 23), ("H", 45), ("N", 1), ("O", 4)] "H" = 45 := by decide
  have hN : getCount [("C", 23), ("H", 45), ("N", 1), ("O", 4)] "N" = 1 := by decide
  have hO : getCount [("C", 23), ("H", 45), ("N", 1), ("O", 4)] "O" = 4 := by decide
  refine ⟨?_, ?_, ?_⟩
  · unfold calculate_m_plus_1_probability
    rw [h, hC, hH, hN, hO]
    norm_num [calculate_m_plus_1_of_counts, P_C13, P_H2, P_N15, P_O17]
  · unfold calculate_m_plus_2_probability
    rw [h, hC, hH, hN, hO, m2_counts_eq]
    have c1 : Nat.choose 23 2 = 253 := by decide
    have c2 : Nat.choose 45 2 = 990 := by decide
    have c3 : Nat.choose 1 2 = 0 := by decide
    have c4 : Nat.choose 4 2 = 6 := by decide
    rw [c1, c2, c3, c4]
    norm_num [P_C13, P_H2, P_N15, P_O17, P_O18]
  · unfold calculate_m_plus_3_probability
    rw [h, hC, hH, hN, hO, m3_counts_eq]
    have c1 : Nat.choose 23 2 = 253 := by decide
    have c2 : Nat.choose 45 2 = 990 := by decide
    have c3 : Nat.choose 1 2 = 0 := by decide
    have c4 : Nat.choose 4 2 = 6 := by decide
    have d1 : Nat.choose 23 3 = 1771 := by decide
    have d2 : Nat.choose 45 3 = 14190 := by decide
    have d3 : Nat.choose 1 3 = 0 := by decide
    have d4 : Nat.choose 4 3 = 4 := by decide
    rw [c1, c2, c3, c4, d1, d2, d3, d4]
    norm_num [P_C13, P_H2, P_N15, P_O17, P_O18]

/-- C10: `parse_formula` is total — every string yields a mapping; characters
matching no token are skipped ("23CH4" parses like "CH4"); a string without
uppercase letters yields the empty mapping and all three probability
functions return 0 on it. -/
theorem C10_parse_total_skip :
    (∀ s : String, (∀ c ∈ s.data, c.isUpper = false) →
      parse_formula s = [] ∧ calculate_m_plus_1_probability s = 0 ∧
      calculate_m_plus_2_probability s = 0 ∧ calculate_m_plus_3_probability s = 0) ∧
    parse_formula "23CH4" = parse_formula "CH4" := by
  constructor
  · intro s hs
    have hp : parse_formula s = [] := by
      unfold parse_formula
      rw [scanTokens_no_upper s.data hs]
      rfl
    refine ⟨hp, ?_, ?_, ?_⟩
    · unfold calculate_m_plus_1_probability
      rw [hp]
      norm_num [getCount, lookupDict, calculate_m_plus_1_of_counts]
    · unfold calculate_m_plus_2_probability
      rw [hp]
      norm_num [getCount, lookupDict, calculate_m_plus_2_of_counts]
    · unfold calculate_m_plus_3_probability
      rw [hp]
      norm_num [getCount, lookupDict, calculate_m_plus_3_of_counts]
  · decide

/-- C10 (witness): instantiation at the uppercase-free string "12+". -/
theorem C10_parse_total_skip_witness :
    parse_formula "12+" = [] ∧ calculate_m_plus_1_probability "12+" = 0 ∧
    calculate_m_plus_2_probability "12+" = 0 ∧ calculate_m_plus_3_probability "12+" = 0 :=
  C10_parse_total_skip.1 "12+" (by decide)
